import Mathlib

/-!
Shallow embedding of the Forest Focus pomodoro timing/session engine
(src/pomodoro_timer_frontend/src/hooks/usePomodoro.js, the storage
utilities loadState/saveState, and the audio-preference persistence in
useAudio.js), together with theorems checking the natural-language
specification against it.

JavaScript numbers reaching the engine's arithmetic are modelled as
exact rationals; the one place where non-finite values are observable
(the clamp guard in setDurations and at construction) is modelled by the
JNum type, which distinguishes finite numbers from NaN and the two
infinities.
-/

namespace ForestFocus

/-- The session mode string, 'focus' | 'break' (brk stands for 'break'). -/
inductive Mode
| focus
| brk
deriving DecidableEq, Repr

/-- The four plant species strings: 'fern' | 'sapling' | 'sprout' | 'bamboo'. -/
inductive Species
| fern
| sapling
| sprout
| bamboo
deriving DecidableEq, Repr

/-- A JavaScript number: a finite value (exact rational), NaN, or ±Infinity. -/
inductive JNum
| num (q : ℚ)
| nan
| inf
| negInf
deriving DecidableEq, Repr

/-- Number.isFinite. -/
def JNum.isFinite : JNum → Bool
| .num _ => true
| _ => false

/-- clamp(n, min, max) = Math.max(min, Math.min(max, Number.isFinite(n) ? n : min)).
The bounds used by the engine are finite literals, so with the inner
Number.isFinite guard the whole computation stays on finite numbers and
Math.min / Math.max are the rational min / max. -/
def clamp (n : JNum) (lo hi : ℚ) : ℚ :=
  max lo (min hi (match n with
    | .num q => q
    | _ => lo))

/-- minutesToMs(m) = Math.round(m * 60 * 1000); Math.round x = ⌊x + 1/2⌋ for
finite x. -/
def minutesToMs (m : ℚ) : ℤ :=
  ⌊m * 60 * 1000 + 1 / 2⌋

/-- The engine's outward notification: the 'pomodoro-session-complete'
CustomEvent carrying detail.justCompleted. -/
inductive Event
| sessionCompleted (kind : Mode)
deriving DecidableEq, Repr

/-- The engine's in-memory state: the useState cells of usePomodoro plus the
ticking ref that records whether the requestAnimationFrame loop is active. -/
structure EngineState where
  focusMinutes : ℚ
  breakMinutes : ℚ
  mode : Mode
  isRunning : Bool
  ticking : Bool
  remainingMs : ℚ
  sessionCount : ℕ
  species : Species
deriving DecidableEq, Repr

/-- totalMs = minutesToMs(mode === 'focus' ? focusMinutes : breakMinutes). -/
def totalMs (s : EngineState) : ℚ :=
  ((minutesToMs (if s.mode = Mode.focus then s.focusMinutes else s.breakMinutes) : ℤ) : ℚ)

/-- handleSessionComplete: dispatches the completion event with the mode that
just ended, then on focus increments sessionCount, switches to break and loads
minutesToMs(breakMinutes); on break switches to focus and loads
minutesToMs(focusMinutes). isRunning is untouched (the clock keeps running). -/
def handleSessionComplete (s : EngineState) : EngineState × List Event :=
  let justCompleted : Mode := if s.mode = Mode.focus then Mode.focus else Mode.brk
  if s.mode = Mode.focus then
    ({ s with sessionCount := s.sessionCount + 1
            , mode := Mode.brk
            , remainingMs := ((minutesToMs s.breakMinutes : ℤ) : ℚ) },
     [Event.sessionCompleted justCompleted])
  else
    ({ s with mode := Mode.focus
            , remainingMs := ((minutesToMs s.focusMinutes : ℤ) : ℚ) },
     [Event.sessionCompleted justCompleted])

/-- One invocation of the tick callback with elapsed time δ = now − lastPerf
(performance.now is monotone, so callers only ever supply δ ≥ 0). Returns
the resulting state and the notifications fired. If the loop is not active
(ticking.current is false) the call returns immediately. Otherwise
next = Math.max(0, remainingMs − δ); when next is exactly 0 and the previous
value was positive, handleSessionComplete runs (its remainingMs assignment
supersedes next). -/
def tick (δ : ℚ) (s : EngineState) : EngineState × List Event :=
  if s.ticking = false then (s, [])
  else
    let next : ℚ := max 0 (s.remainingMs - δ)
    if next = 0 ∧ 0 < s.remainingMs then handleSessionComplete s
    else ({ s with remainingMs := next }, [])

/-- start(): setRemainingMs(prev => prev <= 0 ? totalMs : prev);
setIsRunning(true); startTicking(). -/
def start (s : EngineState) : EngineState :=
  { s with remainingMs := if s.remainingMs ≤ 0 then totalMs s else s.remainingMs
         , isRunning := true
         , ticking := true }

/-- pause(): setIsRunning(false); stopTicking(). -/
def pause (s : EngineState) : EngineState :=
  { s with isRunning := false, ticking := false }

/-- resume(): setIsRunning(true); startTicking(). -/
def resume (s : EngineState) : EngineState :=
  { s with isRunning := true, ticking := true }

/-- reset(): setIsRunning(false); stopTicking(); setRemainingMs(totalMs). -/
def reset (s : EngineState) : EngineState :=
  { s with isRunning := false, ticking := false, remainingMs := totalMs s }

/-- setDurations(focusM, breakM): clamp both inputs, store them, and if not
running recompute remainingMs as minutesToMs of the new duration of the
current mode; while running the in-flight countdown is left untouched. -/
def setDurations (f b : JNum) (s : EngineState) : EngineState :=
  let fc : ℚ := clamp f 5 120
  let bc : ℚ := clamp b 1 60
  { s with focusMinutes := fc
         , breakMinutes := bc
         , remainingMs :=
             if s.isRunning = false then
               ((minutesToMs (if s.mode = Mode.focus then fc else bc) : ℤ) : ℚ)
             else s.remainingMs }

/-- The persisted JSON record under the key forest_focus_state_v1: every field
optional (a JSON object may omit any key). endAt is nullable when present:
some none models an explicit null, some (some t) a timestamp. The species
string is validated against the four known names by pickSpecies, so it is
carried as the Species enum. -/
structure PersistedRecord where
  focusMinutes : Option JNum
  breakMinutes : Option JNum
  mode : Option Mode
  isRunning : Option Bool
  remainingMs : Option ℚ
  endAt : Option (Option ℚ)
  sessionCount : Option ℕ
  species : Option Species
  soundMuted : Option Bool
  volume : Option ℚ
  ambientOn : Option Bool
  savedAt : Option ℚ
deriving DecidableEq, Repr

/-- The empty JSON object {}. -/
def emptyRec : PersistedRecord :=
  ⟨none, none, none, none, none, none, none, none, none, none, none, none⟩

/-- Truthiness of persisted?.isRunning (undefined and false are falsy). -/
def isRunningTruthy (p : Option PersistedRecord) : Bool :=
  match p with
  | none => false
  | some r => r.isRunning.getD false

/-- Truthiness of persisted?.endAt: the key must be present, non-null, and the
number must be nonzero (0 is falsy in JavaScript). -/
def endAtTruthy (p : Option PersistedRecord) : Bool :=
  match p with
  | none => false
  | some r =>
    match r.endAt with
    | some (some e) => decide (e ≠ 0)
    | _ => false

/-- The numeric value of persisted?.endAt (0 when absent or null; only read
under endAtTruthy, where it is the stored timestamp). -/
def endAtValue (p : Option PersistedRecord) : ℚ :=
  match p with
  | some r => (r.endAt.getD none).getD 0
  | none => 0

/-- useState initializer: clamp(persisted?.focusMinutes ?? 25, 5, 120). -/
def initFocusMinutes (p : Option PersistedRecord) : ℚ :=
  clamp ((p.bind fun r => r.focusMinutes).getD (JNum.num 25)) 5 120

/-- useState initializer: clamp(persisted?.breakMinutes ?? 5, 1, 60). -/
def initBreakMinutes (p : Option PersistedRecord) : ℚ :=
  clamp ((p.bind fun r => r.breakMinutes).getD (JNum.num 5)) 1 60

/-- useState initializer: persisted?.mode ?? 'focus'. -/
def initMode (p : Option PersistedRecord) : Mode :=
  (p.bind fun r => r.mode).getD Mode.focus

/-- minutesToMs(mode === 'focus' ? focusMinutes : breakMinutes) over the
already-initialized mode and clamped minutes, the ?? fallback used for a
missing persisted remainingMs. -/
def initDefaultTotal (p : Option PersistedRecord) : ℚ :=
  ((minutesToMs (if initMode p = Mode.focus then initFocusMinutes p
                 else initBreakMinutes p) : ℤ) : ℚ)

/-- useState initializer for remainingMs: when persisted?.isRunning and
persisted?.endAt are truthy, est = Math.max(0, endAt − Date.now()),
stored = persisted.remainingMs ?? minutesToMs(current mode's minutes), and
the adopted value is Math.min(Math.max(est, 0), Math.max(stored, est));
otherwise persisted?.remainingMs ?? the same default. -/
def initRemainingMs (p : Option PersistedRecord) (now : ℚ) : ℚ :=
  if isRunningTruthy p && endAtTruthy p then
    let est : ℚ := max 0 (endAtValue p - now)
    let stored : ℚ := (p.bind fun r => r.remainingMs).getD (initDefaultTotal p)
    min (max est 0) (max stored est)
  else (p.bind fun r => r.remainingMs).getD (initDefaultTotal p)

/-- pickSpecies: keep a persisted species naming one of the four plants, else
the random choice made at first creation (passed in as rand). -/
def pickSpecies (persisted : Option Species) (rand : Species) : Species :=
  persisted.getD rand

/-- The engine state right after construction (mount) from a persisted record:
the useState initializers of usePomodoro, plus the rehydration effect that
restarts the frame loop only when persisted?.isRunning and persisted?.endAt
are truthy and the reconciled remainingMs is positive. -/
def initState (p : Option PersistedRecord) (now : ℚ) (rand : Species) : EngineState :=
  { focusMinutes := initFocusMinutes p
  , breakMinutes := initBreakMinutes p
  , mode := initMode p
  , isRunning := (p.bind fun r => r.isRunning).getD false
  , ticking := isRunningTruthy p && endAtTruthy p && decide (0 < initRemainingMs p now)
  , remainingMs := initRemainingMs p now
  , sessionCount := (p.bind fun r => r.sessionCount).getD 0
  , species := pickSpecies (p.bind fun r => r.species) rand }

/-- The backing localStorage cell for the single key: absent, holding a record,
holding an unparsable string, or throwing on access (storage disabled/quota). -/
inductive StorageState
| unavailable
| empty
| corrupt
| stored (r : PersistedRecord)
deriving DecidableEq, Repr

/-- loadState(): try { raw = getItem(KEY); if (!raw) return null;
return JSON.parse(raw); } catch { return null; }. -/
def loadState : StorageState → Option PersistedRecord
| .stored r => some r
| _ => none

/-- One field of the object spread next = { ...current, ...patch }: a key
present in the patch wins, otherwise the current value survives. -/
def spreadField {α : Type} (patchF curF : Option α) : Option α :=
  match patchF with
  | some v => some v
  | none => curF

/-- The object spread { ...current, ...patch } over the schema's fields. -/
def mergeRec (cur patch : PersistedRecord) : PersistedRecord :=
  ⟨spreadField patch.focusMinutes cur.focusMinutes
  , spreadField patch.breakMinutes cur.breakMinutes
  , spreadField patch.mode cur.mode
  , spreadField patch.isRunning cur.isRunning
  , spreadField patch.remainingMs cur.remainingMs
  , spreadField patch.endAt cur.endAt
  , spreadField patch.sessionCount cur.sessionCount
  , spreadField patch.species cur.species
  , spreadField patch.soundMuted cur.soundMuted
  , spreadField patch.volume cur.volume
  , spreadField patch.ambientOn cur.ambientOn
  , spreadField patch.savedAt cur.savedAt⟩

/-- saveState(patch): try { current = loadState() || {};
setItem(KEY, JSON.stringify({ ...current, ...patch })); } catch { ignore }.
When the storage throws, the write is swallowed and the cell is unchanged. -/
def saveState (patch : PersistedRecord) (st : StorageState) : StorageState :=
  match st with
  | .unavailable => .unavailable
  | .stored r => .stored (mergeRec r patch)
  | _ => .stored (mergeRec emptyRec patch)

/-- The full-state object the timer's persistence effect passes to saveState:
every timer field present, endAt = isRunning ? now + remainingMs : null,
savedAt = now; no audio keys. -/
def engineRecord (s : EngineState) (now : ℚ) : PersistedRecord :=
  ⟨some (JNum.num s.focusMinutes)
  , some (JNum.num s.breakMinutes)
  , some s.mode
  , some s.isRunning
  , some s.remainingMs
  , some (if s.isRunning then some (now + s.remainingMs) else none)
  , some s.sessionCount
  , some s.species
  , none, none, none
  , some now⟩

/-- The audio hook's persistence effect:
saveState({ ...loadState() || {}, soundMuted, volume, ambientOn }). -/
def audioSave (muted : Bool) (vol : ℚ) (ambient : Bool) (st : StorageState) : StorageState :=
  let current := (loadState st).getD emptyRec
  saveState (mergeRec current
    ⟨none, none, none, none, none, none, none, none
    , some muted, some vol, some ambient, none⟩) st

/-- One engine operation, as a step relation between states (tick steps carry
a nonnegative elapsed time, performance.now being monotone). -/
inductive Step : EngineState → EngineState → Prop
| stepTick (s : EngineState) (δ : ℚ) (h : 0 ≤ δ) : Step s (tick δ s).1
| stepStart (s : EngineState) : Step s (start s)
| stepPause (s : EngineState) : Step s (pause s)
| stepResume (s : EngineState) : Step s (resume s)
| stepReset (s : EngineState) : Step s (reset s)
| stepSetDurations (s : EngineState) (f b : JNum) : Step s (setDurations f b s)

/-- States reachable from construction (over records satisfying P) by engine
operations. -/
inductive Reachable (P : Option PersistedRecord → Prop) : EngineState → Prop
| init (p : Option PersistedRecord) (now : ℚ) (rand : Species) (hp : P p) :
    Reachable P (initState p now rand)
| step (s s' : EngineState) (h : Reachable P s) (hs : Step s s') : Reachable P s'

/-- Configuration well-formedness: both durations inside their clamp ranges. -/
def InRange (s : EngineState) : Prop :=
  5 ≤ s.focusMinutes ∧ s.focusMinutes ≤ 120 ∧ 1 ≤ s.breakMinutes ∧ s.breakMinutes ≤ 60

/-- A persisted record (or its absence) whose stored remainingMs, when present,
is nonnegative. -/
def WFRemaining (p : Option PersistedRecord) : Prop :=
  ∀ r q, p = some r → r.remainingMs = some q → 0 ≤ q

lemma clamp_num (q lo hi : ℚ) : clamp (JNum.num q) lo hi = max lo (min hi q) := rfl

lemma clamp_lower (n : JNum) (lo hi : ℚ) : lo ≤ clamp n lo hi :=
  le_max_left _ _

lemma clamp_upper (n : JNum) {lo hi : ℚ} (h : lo ≤ hi) : clamp n lo hi ≤ hi := by
  unfold clamp
  exact max_le h (min_le_left _ _)

lemma clamp_nonfinite {n : JNum} (hn : n.isFinite = false) {lo hi : ℚ}
    (h : lo ≤ hi) : clamp n lo hi = lo := by
  cases n with
  | num q => simp [JNum.isFinite] at hn
  | nan => unfold clamp; rw [min_eq_right h, max_self]
  | inf => unfold clamp; rw [min_eq_right h, max_self]
  | negInf => unfold clamp; rw [min_eq_right h, max_self]

lemma minutesToMs_nonneg {m : ℚ} (h : 0 ≤ m) :
    (0 : ℚ) ≤ ((minutesToMs m : ℤ) : ℚ) := by
  have h' : (0 : ℤ) ≤ minutesToMs m := by
    unfold minutesToMs
    refine Int.le_floor.mpr ?_
    push_cast
    nlinarith
  exact_mod_cast h'

@[simp] lemma setDurations_focusMinutes (f b : JNum) (s : EngineState) :
    (setDurations f b s).focusMinutes = clamp f 5 120 := rfl

@[simp] lemma setDurations_breakMinutes (f b : JNum) (s : EngineState) :
    (setDurations f b s).breakMinutes = clamp b 1 60 := rfl

@[simp] lemma setDurations_mode (f b : JNum) (s : EngineState) :
    (setDurations f b s).mode = s.mode := rfl

@[simp] lemma setDurations_sessionCount (f b : JNum) (s : EngineState) :
    (setDurations f b s).sessionCount = s.sessionCount := rfl

@[simp] lemma setDurations_species (f b : JNum) (s : EngineState) :
    (setDurations f b s).species = s.species := rfl

@[simp] lemma setDurations_isRunning (f b : JNum) (s : EngineState) :
    (setDurations f b s).isRunning = s.isRunning := rfl

lemma setDurations_remainingMs (f b : JNum) (s : EngineState) :
    (setDurations f b s).remainingMs =
      if s.isRunning = false then
        ((minutesToMs (if s.mode = Mode.focus then clamp f 5 120 else clamp b 1 60) : ℤ) : ℚ)
      else s.remainingMs := rfl

/-- A convenient concrete state (a fresh engine with no persisted data). -/
def freshState : EngineState := initState none 0 Species.fern

/-- C5: for every input pair, including non-finite numbers, setDurations
yields focusMinutes in [5, 120] and breakMinutes in [1, 60], and a non-finite
input maps to the minimum bound of its range. -/
theorem setDurations_range (s : EngineState) (f b : JNum) :
    (5 ≤ (setDurations f b s).focusMinutes ∧ (setDurations f b s).focusMinutes ≤ 120) ∧
    (1 ≤ (setDurations f b s).breakMinutes ∧ (setDurations f b s).breakMinutes ≤ 60) ∧
    (f.isFinite = false → (setDurations f b s).focusMinutes = 5) ∧
    (b.isFinite = false → (setDurations f b s).breakMinutes = 1) := by
  refine ⟨⟨?_, ?_⟩, ⟨?_, ?_⟩, ?_, ?_⟩
  · simpa using clamp_lower f 5 120
  · simpa using clamp_upper f (by norm_num : (5:ℚ) ≤ 120)
  · simpa using clamp_lower b 1 60
  · simpa using clamp_upper b (by norm_num : (1:ℚ) ≤ 60)
  · intro hf
    simpa using clamp_nonfinite hf (by norm_num : (5:ℚ) ≤ 120)
  · intro hb
    simpa using clamp_nonfinite hb (by norm_num : (1:ℚ) ≤ 60)

theorem setDurations_range_witness :
    5 ≤ (setDurations JNum.nan JNum.inf freshState).focusMinutes ∧
    (setDurations JNum.nan JNum.inf freshState).focusMinutes = 5 ∧
    (setDurations JNum.nan JNum.inf freshState).breakMinutes = 1 := by
  have h := setDurations_range freshState JNum.nan JNum.inf
  exact ⟨h.1.1, h.2.2.1 rfl, h.2.2.2 rfl⟩

/-- C6: setDurations stores the clamped configuration; when idle it recomputes
remainingMs as minutesToMs of the new duration of the current mode, when
running it leaves remainingMs untouched; mode, sessionCount and species are
unchanged in both cases. -/
theorem setDurations_frame (s : EngineState) (f b : JNum) :
    (setDurations f b s).focusMinutes = clamp f 5 120 ∧
    (setDurations f b s).breakMinutes = clamp b 1 60 ∧
    (s.isRunning = false →
      (setDurations f b s).remainingMs =
        ((minutesToMs (if s.mode = Mode.focus then clamp f 5 120 else clamp b 1 60) : ℤ) : ℚ)) ∧
    (s.isRunning = true → (setDurations f b s).remainingMs = s.remainingMs) ∧
    (setDurations f b s).mode = s.mode ∧
    (setDurations f b s).sessionCount = s.sessionCount ∧
    (setDurations f b s).species = s.species := by
  refine ⟨rfl, rfl, ?_, ?_, rfl, rfl, rfl⟩
  · intro h
    rw [setDurations_remainingMs, if_pos h]
  · intro h
    rw [setDurations_remainingMs, if_neg (by simp [h])]

theorem setDurations_frame_witness :
    (setDurations (JNum.num 30) (JNum.num 10) freshState).remainingMs =
      ((minutesToMs 30 : ℤ) : ℚ) ∧
    (setDurations (JNum.num 30) (JNum.num 10) freshState).sessionCount =
      freshState.sessionCount := by
  have h := setDurations_frame freshState (JNum.num 30) (JNum.num 10)
  refine ⟨?_, h.2.2.2.2.2.1⟩
  have h3 := h.2.2.1 (by decide)
  have hm : freshState.mode = Mode.focus := rfl
  have hc : clamp (JNum.num 30) 5 120 = 30 := by decide
  rw [h3, hm]
  simp [hc]

/-- C2: from a running focus state whose remaining time is positive and at
most the elapsed δ, one tick drives the Focus→Break transition exactly once:
mode becomes break, sessionCount increases by one, remainingMs becomes
totalMs of the new (break) state, isRunning stays true, and exactly one
sessionCompleted notification fires, carrying 'focus', the mode that ended. -/
theorem focus_tick_transition (s : EngineState) (δ : ℚ)
    (hmode : s.mode = Mode.focus) (hrun : s.isRunning = true)
    (htick : s.ticking = true) (hpos : 0 < s.remainingMs) (hle : s.remainingMs ≤ δ) :
    (tick δ s).1.mode = Mode.brk ∧
    (tick δ s).1.sessionCount = s.sessionCount + 1 ∧
    (tick δ s).1.remainingMs = totalMs (tick δ s).1 ∧
    (tick δ s).1.isRunning = true ∧
    (tick δ s).2 = [Event.sessionCompleted Mode.focus] := by
  have hnext : max 0 (s.remainingMs - δ) = 0 := max_eq_left (by linarith)
  refine ⟨?_, ?_, ?_, ?_, ?_⟩ <;>
    simp [tick, handleSessionComplete, totalMs, htick, hrun, hmode, hnext, hpos]

/-- Concrete running focus state used to witness the Focus→Break transition. -/
def sampleFocusRun : EngineState :=
  ⟨25, 5, Mode.focus, true, true, 1, 7, Species.bamboo⟩

theorem focus_tick_transition_witness :
    (tick 1 sampleFocusRun).1.mode = Mode.brk ∧
    (tick 1 sampleFocusRun).1.sessionCount = 8 ∧
    (tick 1 sampleFocusRun).2 = [Event.sessionCompleted Mode.focus] := by
  have h := focus_tick_transition sampleFocusRun 1 rfl rfl rfl
    (by norm_num [sampleFocusRun]) (by norm_num [sampleFocusRun])
  exact ⟨h.1, by simpa [sampleFocusRun] using h.2.1, h.2.2.2.2⟩

/-- C3: from a running break state whose remaining time is positive and at
most the elapsed δ, one tick drives the Break→Focus transition: sessionCount
is unchanged, mode becomes focus, remainingMs becomes totalMs of the new
(focus) state, isRunning stays true, and exactly one sessionCompleted
notification fires, carrying 'break', the mode that just ended. -/
theorem break_tick_transition (s : EngineState) (δ : ℚ)
    (hmode : s.mode = Mode.brk) (hrun : s.isRunning = true)
    (htick : s.ticking = true) (hpos : 0 < s.remainingMs) (hle : s.remainingMs ≤ δ) :
    (tick δ s).1.sessionCount = s.sessionCount ∧
    (tick δ s).1.mode = Mode.focus ∧
    (tick δ s).1.remainingMs = totalMs (tick δ s).1 ∧
    (tick δ s).1.isRunning = true ∧
    (tick δ s).2 = [Event.sessionCompleted Mode.brk] := by
  have hnext : max 0 (s.remainingMs - δ) = 0 := max_eq_left (by linarith)
  refine ⟨?_, ?_, ?_, ?_, ?_⟩ <;>
    simp [tick, handleSessionComplete, totalMs, htick, hrun, hmode, hnext, hpos]

/-- Concrete running break state used to witness the Break→Focus transition. -/
def sampleBreakRun : EngineState :=
  ⟨25, 5, Mode.brk, true, true, 2, 3, Species.fern⟩

theorem break_tick_transition_witness :
    (tick 5 sampleBreakRun).1.sessionCount = 3 ∧
    (tick 5 sampleBreakRun).1.mode = Mode.focus ∧
    (tick 5 sampleBreakRun).2 = [Event.sessionCompleted Mode.brk] := by
  have h := break_tick_transition sampleBreakRun 5 rfl rfl rfl
    (by norm_num [sampleBreakRun]) (by norm_num [sampleBreakRun])
  exact ⟨by simpa [sampleBreakRun] using h.1, h.2.1, h.2.2.2.2⟩

/-- C9: constructing from a record with truthy isRunning and endAt whose
endAt is at or before now yields isRunning = true together with
remainingMs = 0, while the rehydration effect does not start the frame loop
(ticking stays false): a running session whose clock never advances. -/
theorem rehydrate_expired_running (p : PersistedRecord) (now : ℚ) (rand : Species)
    (hrun : isRunningTruthy (some p) = true)
    (hend : endAtTruthy (some p) = true)
    (hpast : endAtValue (some p) ≤ now) :
    (initState (some p) now rand).isRunning = true ∧
    (initState (some p) now rand).remainingMs = 0 ∧
    (initState (some p) now rand).ticking = false := by
  have hest : max 0 (endAtValue (some p) - now) = 0 := max_eq_left (by linarith)
  have hrem : initRemainingMs (some p) now = 0 := by
    unfold initRemainingMs
    rw [hest]
    simp [hrun, hend, min_eq_left (le_max_right _ (0 : ℚ))]
  refine ⟨?_, ?_, ?_⟩
  · simpa [initState, isRunningTruthy] using hrun
  · simpa [initState] using hrem
  · simp [initState, hrem]

/-- A persisted record of a running session whose predicted end lies in the
past. -/
def expiredRecord : PersistedRecord :=
  ⟨none, none, none, some true, some 5000, some (some 100), none, none,
   none, none, none, none⟩

theorem rehydrate_expired_running_witness :
    (initState (some expiredRecord) 200 Species.sprout).isRunning = true ∧
    (initState (some expiredRecord) 200 Species.sprout).remainingMs = 0 ∧
    (initState (some expiredRecord) 200 Species.sprout).ticking = false :=
  rehydrate_expired_running expiredRecord 200 Species.sprout (by decide) (by decide)
    (by norm_num [endAtValue, expiredRecord])

/-- C4 (amended): under truthy isRunning and endAt the adopted remaining time
is Math.min(Math.max(est, 0), Math.max(stored, est)) with
est = Math.max(0, endAt − now), which collapses to max 0 (endAt − now)
whatever the persisted remainingMs was — the persisted remainingMs never
influences the adopted value, which can therefore exceed it. -/
theorem rehydration_reconcile_amended (p : PersistedRecord) (now : ℚ) (rand : Species)
    (hrun : isRunningTruthy (some p) = true)
    (hend : endAtTruthy (some p) = true) :
    (initState (some p) now rand).remainingMs = max 0 (endAtValue (some p) - now) := by
  have hrem : initRemainingMs (some p) now = max 0 (endAtValue (some p) - now) := by
    unfold initRemainingMs
    simp only [hrun, hend, Bool.and_self, if_pos]
    rw [max_eq_left (le_max_left 0 (endAtValue (some p) - now))]
    exact min_eq_left (le_max_right _ _)
  simpa [initState] using hrem

/-- A running record persisted with 20000 ms left whose endAt is 5000 ms from
now; reconstruction adopts 5000 ms (the spec's rehydration example). -/
def reconcileRecord : PersistedRecord :=
  ⟨none, none, none, some true, some 20000, some (some 1005000), none, none,
   none, none, none, none⟩

theorem rehydration_reconcile_amended_witness :
    (initState (some reconcileRecord) 1000000 Species.fern).remainingMs = 5000 := by
  have h := rehydration_reconcile_amended reconcileRecord 1000000 Species.fern
    (by decide) (by decide)
  rw [h]
  norm_num [endAtValue, reconcileRecord]

/-- A running record persisted with only 1000 ms left but whose endAt claims
5000 ms from now. -/
def inventRecord : PersistedRecord :=
  ⟨none, none, none, some true, some 1000, some (some 1005000), none, none,
   none, none, none, none⟩

/-- C4 (counterexample): reconstruction from inventRecord adopts 5000 ms,
strictly more than the persisted remainingMs of 1000 ms — the code does
invent more remaining time than what was last known, refuting the claim's
"never exceeds the persisted remainingMs". -/
theorem rehydration_reconcile_counterexample :
    (initState (some inventRecord) 1000000 Species.fern).remainingMs = 5000 ∧
    ¬((initState (some inventRecord) 1000000 Species.fern).remainingMs ≤ 1000) := by
  have hrem : (initState (some inventRecord) 1000000 Species.fern).remainingMs = 5000 := by
    simp only [initState, initRemainingMs, isRunningTruthy, endAtTruthy, endAtValue,
      inventRecord]
    norm_num
  refine ⟨hrem, ?_⟩
  rw [hrem]
  norm_num

lemma spreadField_present {α : Type} (p c : Option α) (h : p.isSome = true) :
    spreadField p c = p := by
  cases p with
  | some v => rfl
  | none => simp at h

lemma spreadField_absent {α : Type} (p c : Option α) (h : p = none) :
    spreadField p c = c := by
  subst h; rfl

lemma spreadField_self {α : Type} (a : Option α) : spreadField a a = a := by
  cases a <;> rfl

/-- C7: writing an engine state through saveState and reading it back
through loadState (over any writable storage) yields a record whose
focusMinutes, breakMinutes, mode, species and sessionCount are exactly the
state's — persisting then reloading loses no configuration or session
identity. -/
theorem persist_roundtrip (s : EngineState) (now : ℚ) (st : StorageState)
    (h : st ≠ StorageState.unavailable) :
    ∃ r, loadState (saveState (engineRecord s now) st) = some r ∧
      r.focusMinutes = some (JNum.num s.focusMinutes) ∧
      r.breakMinutes = some (JNum.num s.breakMinutes) ∧
      r.mode = some s.mode ∧
      r.species = some s.species ∧
      r.sessionCount = some s.sessionCount := by
  cases st with
  | unavailable => exact absurd rfl h
  | empty => exact ⟨_, rfl, rfl, rfl, rfl, rfl, rfl⟩
  | corrupt => exact ⟨_, rfl, rfl, rfl, rfl, rfl, rfl⟩
  | stored r => exact ⟨_, rfl, rfl, rfl, rfl, rfl, rfl⟩

/-- Concrete engine state used to witness the persistence round-trip. -/
def roundtripState : EngineState :=
  ⟨30, 10, Mode.brk, false, false, 600000, 4, Species.sapling⟩

theorem persist_roundtrip_witness :
    ∃ r, loadState (saveState (engineRecord roundtripState 42) StorageState.empty) = some r ∧
      r.focusMinutes = some (JNum.num 30) ∧
      r.breakMinutes = some (JNum.num 10) ∧
      r.mode = some Mode.brk ∧
      r.species = some Species.sapling ∧
      r.sessionCount = some 4 :=
  persist_roundtrip roundtripState 42 StorageState.empty (by simp)

/-- C8: no storage error reaches the engine. loadState answers none on an
unavailable, missing or unparsable stored record; construction from the
absence value falls back to the defaults 25/5, mode focus, sessionCount 0;
and a write against unavailable storage is swallowed, leaving the cell
unchanged, so the engine keeps operating in memory. -/
theorem storage_errors_swallowed :
    (loadState StorageState.unavailable = none ∧
     loadState StorageState.empty = none ∧
     loadState StorageState.corrupt = none) ∧
    (∀ (now : ℚ) (rand : Species),
      (initState none now rand).focusMinutes = 25 ∧
      (initState none now rand).breakMinutes = 5 ∧
      (initState none now rand).mode = Mode.focus ∧
      (initState none now rand).sessionCount = 0) ∧
    (∀ patch : PersistedRecord,
      saveState patch StorageState.unavailable = StorageState.unavailable) := by
  refine ⟨⟨rfl, rfl, rfl⟩, ?_, fun _ => rfl⟩
  intro now rand
  refine ⟨?_, ?_, rfl, rfl⟩
  · show clamp (JNum.num 25) 5 120 = 25
    decide
  · show clamp (JNum.num 5) 1 60 = 5
    decide

/-- C10: saveState merges object-spread style: every key present in the patch
takes the patch's value and every other key keeps its previously stored
value; the timer's full-state save carries no audio keys so it preserves
soundMuted, volume and ambientOn, and the audio-preference save re-reads the
stored record first so it preserves every timer field. -/
theorem saveState_merge :
    (∀ cur patch : PersistedRecord,
      ((patch.focusMinutes.isSome = true → (mergeRec cur patch).focusMinutes = patch.focusMinutes) ∧
       (patch.focusMinutes = none → (mergeRec cur patch).focusMinutes = cur.focusMinutes)) ∧
      ((patch.breakMinutes.isSome = true → (mergeRec cur patch).breakMinutes = patch.breakMinutes) ∧
       (patch.breakMinutes = none → (mergeRec cur patch).breakMinutes = cur.breakMinutes)) ∧
      ((patch.mode.isSome = true → (mergeRec cur patch).mode = patch.mode) ∧
       (patch.mode = none → (mergeRec cur patch).mode = cur.mode)) ∧
      ((patch.isRunning.isSome = true → (mergeRec cur patch).isRunning = patch.isRunning) ∧
       (patch.isRunning = none → (mergeRec cur patch).isRunning = cur.isRunning)) ∧
      ((patch.remainingMs.isSome = true → (mergeRec cur patch).remainingMs = patch.remainingMs) ∧
       (patch.remainingMs = none → (mergeRec cur patch).remainingMs = cur.remainingMs)) ∧
      ((patch.endAt.isSome = true → (mergeRec cur patch).endAt = patch.endAt) ∧
       (patch.endAt = none → (mergeRec cur patch).endAt = cur.endAt)) ∧
      ((patch.sessionCount.isSome = true → (mergeRec cur patch).sessionCount = patch.sessionCount) ∧
       (patch.sessionCount = none → (mergeRec cur patch).sessionCount = cur.sessionCount)) ∧
      ((patch.species.isSome = true → (mergeRec cur patch).species = patch.species) ∧
       (patch.species = none → (mergeRec cur patch).species = cur.species)) ∧
      ((patch.soundMuted.isSome = true → (mergeRec cur patch).soundMuted = patch.soundMuted) ∧
       (patch.soundMuted = none → (mergeRec cur patch).soundMuted = cur.soundMuted)) ∧
      ((patch.volume.isSome = true → (mergeRec cur patch).volume = patch.volume) ∧
       (patch.volume = none → (mergeRec cur patch).volume = cur.volume)) ∧
      ((patch.ambientOn.isSome = true → (mergeRec cur patch).ambientOn = patch.ambientOn) ∧
       (patch.ambientOn = none → (mergeRec cur patch).ambientOn = cur.ambientOn)) ∧
      ((patch.savedAt.isSome = true → (mergeRec cur patch).savedAt = patch.savedAt) ∧
       (patch.savedAt = none → (mergeRec cur patch).savedAt = cur.savedAt))) ∧
    (∀ (r patch : PersistedRecord),
      loadState (saveState patch (StorageState.stored r)) = some (mergeRec r patch)) ∧
    (∀ (s : EngineState) (now : ℚ) (r : PersistedRecord),
      (mergeRec r (engineRecord s now)).soundMuted = r.soundMuted ∧
      (mergeRec r (engineRecord s now)).volume = r.volume ∧
      (mergeRec r (engineRecord s now)).ambientOn = r.ambientOn) ∧
    (∀ (muted : Bool) (vol : ℚ) (ambient : Bool) (r : PersistedRecord),
      ∃ r2, loadState (audioSave muted vol ambient (StorageState.stored r)) = some r2 ∧
        r2.focusMinutes = r.focusMinutes ∧
        r2.breakMinutes = r.breakMinutes ∧
        r2.mode = r.mode ∧
        r2.isRunning = r.isRunning ∧
        r2.remainingMs = r.remainingMs ∧
        r2.endAt = r.endAt ∧
        r2.sessionCount = r.sessionCount ∧
        r2.species = r.species ∧
        r2.soundMuted = some muted ∧
        r2.volume = some vol ∧
        r2.ambientOn = some ambient) := by
  refine ⟨?_, fun r patch => rfl, fun s now r => ⟨rfl, rfl, rfl⟩, ?_⟩
  · intro cur patch
    exact ⟨⟨spreadField_present _ _, spreadField_absent _ _⟩,
      ⟨spreadField_present _ _, spreadField_absent _ _⟩,
      ⟨spreadField_present _ _, spreadField_absent _ _⟩,
      ⟨spreadField_present _ _, spreadField_absent _ _⟩,
      ⟨spreadField_present _ _, spreadField_absent _ _⟩,
      ⟨spreadField_present _ _, spreadField_absent _ _⟩,
      ⟨spreadField_present _ _, spreadField_absent _ _⟩,
      ⟨spreadField_present _ _, spreadField_absent _ _⟩,
      ⟨spreadField_present _ _, spreadField_absent _ _⟩,
      ⟨spreadField_present _ _, spreadField_absent _ _⟩,
      ⟨spreadField_present _ _, spreadField_absent _ _⟩,
      ⟨spreadField_present _ _, spreadField_absent _ _⟩⟩
  · intro muted vol ambient r
    refine ⟨_, rfl, ?_, ?_, ?_, ?_, ?_, ?_, ?_, ?_, rfl, rfl, rfl⟩ <;>
      exact spreadField_self _

/-- A fully populated previously stored record. -/
def priorStored : PersistedRecord :=
  ⟨some (JNum.num 25), some (JNum.num 5), some Mode.focus, some false,
   some 1500000, some none, some 2, some Species.bamboo,
   some true, some (1 / 2), some false, some 99⟩

/-- An audio-preference style patch: only volume and the two toggles present. -/
def audioPatch : PersistedRecord :=
  ⟨none, none, none, none, none, none, none, none,
   some true, some (3 / 4), some true, none⟩

theorem saveState_merge_witness :
    (mergeRec priorStored audioPatch).volume = audioPatch.volume ∧
    (mergeRec priorStored audioPatch).focusMinutes = priorStored.focusMinutes := by
  have h := (saveState_merge.1 priorStored audioPatch)
  exact ⟨h.2.2.2.2.2.2.2.2.2.1.1 rfl, h.1.2 rfl⟩

lemma Mode.not_focus {m : Mode} (h : ¬m = Mode.focus) : m = Mode.brk := by
  cases m with
  | focus => exact absurd rfl h
  | brk => rfl

lemma tick_eq (δ : ℚ) (s : EngineState) :
    tick δ s =
      if s.ticking = false then (s, [])
      else if max 0 (s.remainingMs - δ) = 0 ∧ 0 < s.remainingMs then
        handleSessionComplete s
      else ({ s with remainingMs := max 0 (s.remainingMs - δ) }, []) := rfl

lemma handleSessionComplete_focus (s : EngineState) (h : s.mode = Mode.focus) :
    handleSessionComplete s =
      ({ s with sessionCount := s.sessionCount + 1
              , mode := Mode.brk
              , remainingMs := ((minutesToMs s.breakMinutes : ℤ) : ℚ) },
       [Event.sessionCompleted Mode.focus]) := by
  simp [handleSessionComplete, h]

lemma handleSessionComplete_brk (s : EngineState) (h : s.mode = Mode.brk) :
    handleSessionComplete s =
      ({ s with mode := Mode.focus
              , remainingMs := ((minutesToMs s.focusMinutes : ℤ) : ℚ) },
       [Event.sessionCompleted Mode.brk]) := by
  simp [handleSessionComplete, h]

lemma tick_fst_focusMinutes (δ : ℚ) (s : EngineState) :
    (tick δ s).1.focusMinutes = s.focusMinutes := by
  rw [tick_eq]
  split_ifs with h1 h2
  · rfl
  · by_cases hm : s.mode = Mode.focus
    · rw [handleSessionComplete_focus s hm]
    · rw [handleSessionComplete_brk s (Mode.not_focus hm)]
  · rfl

lemma tick_fst_breakMinutes (δ : ℚ) (s : EngineState) :
    (tick δ s).1.breakMinutes = s.breakMinutes := by
  rw [tick_eq]
  split_ifs with h1 h2
  · rfl
  · by_cases hm : s.mode = Mode.focus
    · rw [handleSessionComplete_focus s hm]
    · rw [handleSessionComplete_brk s (Mode.not_focus hm)]
  · rfl

lemma start_remainingMs (s : EngineState) :
    (start s).remainingMs = if s.remainingMs ≤ 0 then totalMs s else s.remainingMs := rfl

lemma totalMs_nonneg {s : EngineState} (h : InRange s) : 0 ≤ totalMs s := by
  unfold totalMs
  apply minutesToMs_nonneg
  split_ifs
  · linarith [h.1]
  · linarith [h.2.2.1]

lemma initDefaultTotal_nonneg (p : Option PersistedRecord) : 0 ≤ initDefaultTotal p := by
  unfold initDefaultTotal
  apply minutesToMs_nonneg
  split_ifs
  · have := clamp_lower ((p.bind fun r => r.focusMinutes).getD (JNum.num 25)) 5 120
    unfold initFocusMinutes
    linarith
  · have := clamp_lower ((p.bind fun r => r.breakMinutes).getD (JNum.num 5)) 1 60
    unfold initBreakMinutes
    linarith

lemma initRemainingMs_nonneg (p : Option PersistedRecord) (now : ℚ)
    (hwf : WFRemaining p) : 0 ≤ initRemainingMs p now := by
  unfold initRemainingMs
  split_ifs with h
  · refine le_min (le_max_right _ _) ?_
    exact le_trans (le_max_left 0 _) (le_max_right _ _)
  · cases hp : p.bind (fun r => r.remainingMs) with
    | some q =>
      obtain ⟨r, hr1, hr2⟩ := Option.bind_eq_some.mp hp
      simpa [hp] using hwf r q hr1 hr2
    | none => simpa [hp] using initDefaultTotal_nonneg p

lemma step_inRange {s s' : EngineState} (hs : Step s s') (h : InRange s) :
    InRange s' := by
  cases hs with
  | stepTick δ hδ =>
    refine ⟨?_, ?_, ?_, ?_⟩
    · rw [tick_fst_focusMinutes]; exact h.1
    · rw [tick_fst_focusMinutes]; exact h.2.1
    · rw [tick_fst_breakMinutes]; exact h.2.2.1
    · rw [tick_fst_breakMinutes]; exact h.2.2.2
  | stepStart => exact h
  | stepPause => exact h
  | stepResume => exact h
  | stepReset => exact h
  | stepSetDurations f b =>
    exact ⟨clamp_lower _ _ _, clamp_upper _ (by norm_num),
      clamp_lower _ _ _, clamp_upper _ (by norm_num)⟩

/-- Every reachable state keeps both durations inside their clamp ranges. -/
lemma reach_inRange {P : Option PersistedRecord → Prop} {s : EngineState}
    (h : Reachable P s) : InRange s := by
  induction h with
  | init p now rand hp =>
    exact ⟨clamp_lower _ _ _, clamp_upper _ (by norm_num),
      clamp_lower _ _ _, clamp_upper _ (by norm_num)⟩
  | step s s' hr hs ih => exact step_inRange hs ih

lemma tick_fst_remainingMs_nonneg (δ : ℚ) (s : EngineState)
    (h : InRange s) (h0 : 0 ≤ s.remainingMs) : 0 ≤ (tick δ s).1.remainingMs := by
  rw [tick_eq]
  split_ifs with h1 h2
  · exact h0
  · by_cases hm : s.mode = Mode.focus
    · rw [handleSessionComplete_focus s hm]
      exact minutesToMs_nonneg (by linarith [h.2.2.1])
    · rw [handleSessionComplete_brk s (Mode.not_focus hm)]
      exact minutesToMs_nonneg (by linarith [h.1])
  · exact le_max_left 0 _

/-- Every state reachable from construction over records whose persisted
remainingMs is nonnegative has nonnegative remainingMs. -/
lemma reach_wf_nonneg {s : EngineState} (h : Reachable WFRemaining s) :
    0 ≤ s.remainingMs := by
  induction h with
  | init p now rand hp => exact initRemainingMs_nonneg p now hp
  | step s s' hr hs ih =>
    have hir : InRange s := reach_inRange hr
    cases hs with
    | stepTick δ hδ => exact tick_fst_remainingMs_nonneg δ s hir ih
    | stepStart =>
      rw [start_remainingMs]
      split_ifs
      · exact totalMs_nonneg hir
      · exact ih
    | stepPause => exact ih
    | stepResume => exact ih
    | stepReset => exact totalMs_nonneg hir
    | stepSetDurations f b =>
      rw [setDurations_remainingMs]
      split_ifs with h1 h2
      · exact minutesToMs_nonneg (by linarith [clamp_lower f 5 120])
      · exact minutesToMs_nonneg (by linarith [clamp_lower b 1 60])
      · exact ih

/-- C1 (counterexample): the state reached by constructing a fresh engine,
starting it, and shrinking the durations with setDurations while it runs is
reachable, yet its remainingMs (the untouched in-flight 25-minute countdown)
exceeds totalMs(mode) (the new 5-minute focus total) — refuting
remainingMs ≤ totalMs(mode) for every reachable state. -/
theorem remaining_le_total_counterexample :
    Reachable (fun _ => True)
      (setDurations (JNum.num 5) (JNum.num 1) (start (initState none 0 Species.fern))) ∧
    ¬((setDurations (JNum.num 5) (JNum.num 1) (start (initState none 0 Species.fern))).remainingMs ≤
       totalMs (setDurations (JNum.num 5) (JNum.num 1) (start (initState none 0 Species.fern)))) := by
  have ha : isRunningTruthy none = false := rfl
  have hc : initDefaultTotal none = 1500000 := by
    unfold initDefaultTotal initMode initFocusMinutes
    norm_num [clamp_num, minutesToMs]
  have h0 : (initState none 0 Species.fern).remainingMs = 1500000 := by
    show initRemainingMs none 0 = 1500000
    unfold initRemainingMs
    rw [ha]
    simpa using hc
  have h1 : (start (initState none 0 Species.fern)).remainingMs = 1500000 := by
    rw [start_remainingMs, h0]
    norm_num
  have h2 : (setDurations (JNum.num 5) (JNum.num 1)
      (start (initState none 0 Species.fern))).remainingMs = 1500000 := by
    rw [setDurations_remainingMs]
    have : (start (initState none 0 Species.fern)).isRunning = true := rfl
    rw [this]
    simpa using h1
  have h3 : totalMs (setDurations (JNum.num 5) (JNum.num 1)
      (start (initState none 0 Species.fern))) = 300000 := by
    show ((minutesToMs (if Mode.focus = Mode.focus then clamp (JNum.num 5) 5 120
      else clamp (JNum.num 1) 1 60) : ℤ) : ℚ) = 300000
    norm_num [clamp_num, minutesToMs]
  constructor
  · exact Reachable.step _ _
      (Reachable.step _ _ (Reachable.init none 0 Species.fern trivial) (Step.stepStart _))
      (Step.stepSetDurations _ _ _)
  · rw [h2, h3]
    norm_num

/-- C1 (amended): over constructions whose persisted remainingMs is
nonnegative when present, every reachable state satisfies 0 ≤ remainingMs;
and remainingMs ≤ totalMs(mode) is preserved by tick (given a nonnegative
total), start, pause, resume, holds outright after reset, and holds after
setDurations when the engine is not running — setDurations while running is
the exception that can break the upper bound. -/
theorem remaining_bounds_amended :
    (∀ s, Reachable WFRemaining s → 0 ≤ s.remainingMs) ∧
    (∀ (s : EngineState) (δ : ℚ), 0 ≤ δ → 0 ≤ totalMs s → s.remainingMs ≤ totalMs s →
       (tick δ s).1.remainingMs ≤ totalMs (tick δ s).1) ∧
    (∀ s : EngineState, s.remainingMs ≤ totalMs s →
       (start s).remainingMs ≤ totalMs (start s)) ∧
    (∀ s : EngineState, s.remainingMs ≤ totalMs s →
       (pause s).remainingMs ≤ totalMs (pause s)) ∧
    (∀ s : EngineState, s.remainingMs ≤ totalMs s →
       (resume s).remainingMs ≤ totalMs (resume s)) ∧
    (∀ s : EngineState, (reset s).remainingMs ≤ totalMs (reset s)) ∧
    (∀ (s : EngineState) (f b : JNum), s.isRunning = false →
       (setDurations f b s).remainingMs ≤ totalMs (setDurations f b s)) := by
  refine ⟨fun s h => reach_wf_nonneg h, ?_, ?_, ?_, ?_, ?_, ?_⟩
  · intro s δ hδ h0 hle
    rw [tick_eq]
    split_ifs with h1 h2
    · exact hle
    · by_cases hm : s.mode = Mode.focus
      · rw [handleSessionComplete_focus s hm]
        simp [totalMs]
      · rw [handleSessionComplete_brk s (Mode.not_focus hm)]
        simp [totalMs]
    · show max 0 (s.remainingMs - δ) ≤ totalMs s
      exact max_le h0 (by linarith)
  · intro s hle
    rw [start_remainingMs]
    split_ifs
    · exact le_refl (totalMs s)
    · exact hle
  · intro s hle
    exact hle
  · intro s hle
    exact hle
  · intro s
    exact le_refl (totalMs s)
  · intro s f b hrun
    rw [setDurations_remainingMs, if_pos hrun]
    unfold totalMs
    rw [setDurations_mode, setDurations_focusMinutes, setDurations_breakMinutes]

/-- Concrete running state used to witness the amended bounds. -/
def boundsState : EngineState :=
  ⟨25, 5, Mode.focus, true, true, 200, 0, Species.fern⟩

theorem remaining_bounds_amended_witness :
    0 ≤ (initState none 0 Species.fern).remainingMs ∧
    (tick 50 boundsState).1.remainingMs ≤ totalMs (tick 50 boundsState).1 := by
  have h := remaining_bounds_amended
  constructor
  · exact h.1 _ (Reachable.init none 0 Species.fern
      (fun r q hr => Option.noConfusion hr))
  · refine h.2.1 boundsState 50 (by norm_num) ?_ ?_
    · show (0 : ℚ) ≤ ((minutesToMs (if Mode.focus = Mode.focus then 25 else 5) : ℤ) : ℚ)
      norm_num [minutesToMs]
    · show (200 : ℚ) ≤ ((minutesToMs (if Mode.focus = Mode.focus then 25 else 5) : ℤ) : ℚ)
      norm_num [minutesToMs]

end ForestFocus
